import Mathlib

/-!
Shallow embedding of the API-orchestration layer of the CodeBase-Explainer
repository (src/services/geminiApi.ts and src/services/githubApi.ts).
JavaScript strings are modelled as Lean `String` / `List Char`; `substring`,
`slice` and `split` act on the character sequence.  Network effects are
modelled by passing the responses (or an indexed response oracle) as explicit
arguments, and by returning a log of issued requests / timer delays where a
claim talks about them.
-/

/-! ## Truncation (geminiApi.ts: generateFileExplanation, lines 64-80,
    and generateCodeQuestionResponse, lines 162-174) -/

/-- `const maxChars = 15000` in `generateFileExplanation`. -/
def FILE_MAX_CHARS : Nat := 15000

/-- `const maxChars = 12000` in `generateCodeQuestionResponse`. -/
def QUESTION_MAX_CHARS : Nat := 12000

/-- The marker inserted between the two halves by `generateFileExplanation`:
`\n\n... [middle section truncated - N characters omitted] ...\n\n`. -/
def fileTruncationMarker (omitted : Nat) : List Char :=
  ("\n\n... [middle section truncated - " ++ toString omitted ++
    " characters omitted] ...\n\n").data

/-- The marker inserted between the two halves by
`generateCodeQuestionResponse`: a fixed string, with no character count. -/
def questionTruncationMarker : List Char :=
  "\n\n... [middle section omitted] ...\n\n".data

/-- The `(contentToSend, isTruncated)` computation of `generateFileExplanation`
(geminiApi.ts lines 67-80).  `isTruncated` drives the prompt's truncation
annotation lines. -/
def generateFileExplanationContent (fileContent : List Char) : List Char × Bool :=
  let charCount := fileContent.length
  if charCount > FILE_MAX_CHARS then
    let halfLimit := FILE_MAX_CHARS / 2
    let front := fileContent.take halfLimit
    let back := fileContent.drop (charCount - halfLimit)
    (front ++ fileTruncationMarker (charCount - FILE_MAX_CHARS) ++ back, true)
  else
    (fileContent, false)

/-- The `(contentToSend, isTruncated)` computation of
`generateCodeQuestionResponse` (geminiApi.ts lines 162-174). -/
def generateCodeQuestionContent (fileContent : List Char) : List Char × Bool :=
  let charCount := fileContent.length
  if charCount > QUESTION_MAX_CHARS then
    let halfLimit := QUESTION_MAX_CHARS / 2
    let front := fileContent.take halfLimit
    let back := fileContent.drop (charCount - halfLimit)
    (front ++ questionTruncationMarker ++ back, true)
  else
    (fileContent, false)

/-! ## Rate limiter (geminiApi.ts: waitForRateLimit, lines 2-15)

One turn reads `Date.now()` (`startTime`), computes the remaining wait,
awaits `setTimeout` for it, reads `Date.now()` again (`resumeTime`) and
stores it into the module-level `lastGeminiCallTime`.  The scheduler contract
(`setTimeout` never fires early, clocks are monotone) is the `ValidTurn`
predicate below. -/

/-- `const MIN_CALL_INTERVAL = 1000`. -/
def MIN_CALL_INTERVAL : Nat := 1000

/-- One invocation of `waitForRateLimit`: the two `Date.now()` reads. -/
structure RateLimitTurn where
  startTime : Nat
  resumeTime : Nat

/-- The `waitTime` computed at lines 8-10: `MIN_CALL_INTERVAL - (now - last)`
when `now - last < MIN_CALL_INTERVAL`, else no wait. -/
def requiredWaitTime (lastGeminiCallTime now : Nat) : Nat :=
  let timeSinceLastCall := now - lastGeminiCallTime
  if timeSinceLastCall < MIN_CALL_INTERVAL then
    MIN_CALL_INTERVAL - timeSinceLastCall
  else 0

/-- Scheduler contract for a turn: the post-wait clock read is at least the
entry read plus the requested wait (in the no-wait branch the requested wait
is 0, so this just says the clock is monotone). -/
def ValidTurn (lastGeminiCallTime : Nat) (t : RateLimitTurn) : Prop :=
  t.startTime + requiredWaitTime lastGeminiCallTime t.startTime ≤ t.resumeTime

/-- `waitForRateLimit` (lines 6-15): returns `(grant timestamp, updated
lastGeminiCallTime)`.  Line 14 sets `lastGeminiCallTime = Date.now()` after
the (possible) wait, so both components are the post-wait clock read; the
call always proceeds (a turn is delayed, never denied). -/
def waitForRateLimit (lastGeminiCallTime : Nat) (t : RateLimitTurn) : Nat × Nat :=
  let _waitTime := requiredWaitTime lastGeminiCallTime t.startTime
  (t.resumeTime, t.resumeTime)

/-! ## Diagram compiler (geminiApi.ts: convertJsonToMermaid, lines 455-504)

The untrusted LLM-produced JSON is modelled at the granularity the function
inspects it: string fields are `Option String` (`none` = missing/null, and
the empty string is also falsy for `x || d`), the `components` and
`relationships` fields are `Option (List _)` (`none` = missing or not an
array, failing the `Array.isArray` check), and the top-level `modules` field
is a three-way sum so that a present-but-not-an-array value is expressible. -/

structure DiagComponent where
  id : Option String
  label : Option String

structure DiagModule where
  label : Option String
  components : Option (List DiagComponent)

structure DiagRelationship where
  «from» : Option String
  «to» : Option String
  type : Option String

inductive ModulesField where
  | absent
  | notArray (value : String)
  | array (mods : List DiagModule)

structure DiagramData where
  modules : ModulesField
  relationships : Option (List DiagRelationship)

/-- JavaScript `x || d` for an optional string field: missing/null and the
empty string are falsy. -/
def orDefault (v : Option String) (d : String) : String :=
  match v with
  | none => d
  | some s => if s = "" then d else s

/-- Characters kept by the id sanitizer regex `[^a-zA-Z0-9_]`. -/
def isIdChar (c : Char) : Bool :=
  ('a' ≤ c && c ≤ 'z') || ('A' ≤ c && c ≤ 'Z') || ('0' ≤ c && c ≤ '9') || c = '_'

/-- `.replace(/[^a-zA-Z0-9_]/g, '_')`. -/
def sanitizeId (s : String) : String :=
  ⟨s.data.map (fun c => if isIdChar c then c else '_')⟩

/-- `.replace(/"/g, "'")`. -/
def sanitizeLabel (s : String) : String :=
  ⟨s.data.map (fun c => if c = '"' then '\'' else c)⟩

/-- JS `Set.add`: insert if absent, preserving insertion order. -/
def addToSet (s : List String) (x : String) : List String :=
  if x ∈ s then s else s ++ [x]

/-- The sanitized id of one component: `(comp.id || 'node').replace(...)`. -/
def componentSafeId (comp : DiagComponent) : String :=
  sanitizeId (orDefault comp.id "node")

/-- The inner `mod.components.forEach` loop (lines 471-481): appends one node
line per component and records the sanitized id in the `validIds` set. -/
def processComponents : List DiagComponent → String → List String → String × List String
  | [], acc, validIds => (acc, validIds)
  | comp :: rest, acc, validIds =>
    let safeId := componentSafeId comp
    let validIds1 := addToSet validIds safeId
    let safeLabel := sanitizeLabel (orDefault comp.label safeId)
    processComponents rest (acc ++ "        " ++ safeId ++ "[\"" ++ safeLabel ++ "\"]\n") validIds1

/-- The `data.modules.forEach` loop (lines 464-484). -/
def processModules : List DiagModule → String → List String → String × List String
  | [], acc, validIds => (acc, validIds)
  | m :: rest, acc, validIds =>
    let safeModLabel := sanitizeLabel (orDefault m.label "Module")
    let acc1 := acc ++ "    subgraph \"" ++ safeModLabel ++ "\"\n"
    let step :=
      match m.components with
      | some comps => processComponents comps acc1 validIds
      | none => (acc1, validIds)
    processModules rest (step.1 ++ "    end\n") step.2

/-- Sanitized `from` endpoint: `(rel.from || '').replace(...)`. -/
def relSanFrom (rel : DiagRelationship) : String :=
  sanitizeId (orDefault rel.«from» "")

/-- Sanitized `to` endpoint. -/
def relSanTo (rel : DiagRelationship) : String :=
  sanitizeId (orDefault rel.«to» "")

/-- The edge line emitted for one relationship, or `none` when either
endpoint is not in the declared-id set (lines 488-497). -/
def relationshipLine (validIds : List String) (rel : DiagRelationship) : Option String :=
  let fromId := relSanFrom rel
  let toId := relSanTo rel
  if fromId ∈ validIds ∧ toId ∈ validIds then
    let arrow := if rel.type == some "dotted" then "-.->" else "-->"
    some ("    " ++ fromId ++ " " ++ arrow ++ " " ++ toId ++ "\n")
  else
    none

/-- The `data.relationships.forEach` loop (lines 487-498). -/
def processRelationships (validIds : List String) : List DiagRelationship → String → String
  | [], acc => acc
  | rel :: rest, acc =>
    processRelationships validIds rest (acc ++ (relationshipLine validIds rel).getD "")

/-- The fixed style directive appended at line 501. -/
def mermaidFooter : String :=
  "\n    classDef default fill:#1f2937,stroke:#3b82f6,stroke-width:2px,color:#fff;"

/-- `convertJsonToMermaid` (lines 455-504).  Throwing `Invalid diagram data
structure` is modelled as `Except.error` with that message. -/
def convertJsonToMermaid (data : DiagramData) : Except String String :=
  match data.modules with
  | ModulesField.array mods =>
    let nodes := processModules mods "graph TD\n" []
    let withEdges :=
      match data.relationships with
      | some rels => processRelationships nodes.2 rels nodes.1
      | none => nodes.1
    Except.ok (withEdges ++ mermaidFooter)
  | _ => Except.error "Invalid diagram data structure"

/-- The sanitized component ids in emission order: one per node line the
compiler writes (a component whose sanitized id collides with an earlier one
is still emitted). -/
def emittedComponentIds (mods : List DiagModule) : List String :=
  mods.flatMap (fun m =>
    match m.components with
    | some comps => comps.map componentSafeId
    | none => [])

/-- Recursive right-fold string join used to state what the relationship
loop appends. -/
def joinStrs : List String → String
  | [] => ""
  | s :: rest => s ++ joinStrs rest

/-! ## GitHub content fetcher (githubApi.ts)

Responses are passed in explicitly: `fetchGitHubRepo` takes the listing
response and the (secondary) repository-details response as arguments;
`fetchCompleteRepoStructure` takes an oracle `env : Nat → LevelResponse`
indexed by a request counter that is threaded through the recursion, and
returns the log of issued requests and timer delays alongside its result. -/

structure GitHubFile where
  name : String
  path : String
  type : String
  size : Option Nat
  download_url : Option String
  sha : Option String
  url : Option String
deriving DecidableEq

structure GitHubRepo where
  name : String
  owner : String
  path : String
  default_branch : String
  files : List GitHubFile
deriving DecidableEq

/-- One item of a `/contents` listing, as consumed by the mapping at
githubApi.ts lines 47-55. -/
structure ListingItem where
  name : String
  path : String
  type : String
  size : Option Nat
  download_url : Option String
  sha : Option String
  url : Option String
deriving DecidableEq

/-- The item-to-`GitHubFile` conversion of lines 47-55. -/
def toGitHubFile (item : ListingItem) : GitHubFile :=
  { name := item.name, path := item.path, type := item.type, size := item.size,
    download_url := item.download_url, sha := item.sha, url := item.url }

/-- Result of the root listing request. -/
inductive ListingResponse where
  | ok (items : List ListingItem)
  | err (status : Nat) (statusText : String)
deriving DecidableEq

/-- Result of the secondary `/repos/{owner}/{repo}` details request:
`ok branch` is a successful response carrying its `default_branch`,
`failed` is any failure (non-ok status or a thrown error) — non-fatal. -/
inductive DetailsResponse where
  | ok (branch : String)
  | failed
deriving DecidableEq

/-- The error taxonomy of `fetchGitHubRepo`, one constructor per `throw`
site; `message` recovers the exact thrown message strings. -/
inductive GHError where
  | invalidUrl
  | rateLimited
  | notFound
  | fetchFailed (statusText : String)
deriving DecidableEq

def GHError.message : GHError → String
  | .invalidUrl => "Invalid GitHub URL. Please provide a valid GitHub repository URL."
  | .rateLimited => "GitHub API rate limit exceeded. Please try again later."
  | .notFound => "Repository not found or is private. Only public repositories are supported."
  | .fetchFailed statusText => "Failed to fetch repository: " ++ statusText

/-- The literal `github.com/` preceding the owner and repo groups in the
regex `/github\.com\/([^\/]+)\/([^\/]+)/`. -/
def ghLiteral : List Char := "github.com/".data

/-- Try to match the regex at the start of `l`: the literal, then a maximal
nonempty run of non-`/` characters, a `/`, and another maximal nonempty run
of non-`/` characters ([^\/]+ is greedy and is followed by either `\/` or
the end of the pattern, so backtracking inside a run can never succeed). -/
def matchGithubAt (l : List Char) : Option (String × String) :=
  if ghLiteral.isPrefixOf l then
    let rest := l.drop ghLiteral.length
    let owner := rest.takeWhile (fun c => c != '/')
    if owner.isEmpty then none
    else
      match rest.drop owner.length with
      | '/' :: rest2 =>
        let repo := rest2.takeWhile (fun c => c != '/')
        if repo.isEmpty then none else some (⟨owner⟩, ⟨repo⟩)
      | _ => none
  else none

/-- Leftmost match of the regex: try each start position left to right. -/
def searchGithub : List Char → Option (String × String)
  | [] => none
  | c :: rest =>
    match matchGithubAt (c :: rest) with
    | some r => some r
    | none => searchGithub rest

/-- `repoUrl.match(/github\.com\/([^\/]+)\/([^\/]+)/)`, returning the two
capture groups. -/
def matchGithubUrl (repoUrl : String) : Option (String × String) :=
  searchGithub repoUrl.data

/-- `fetchGitHubRepo` (githubApi.ts lines 20-76). -/
def fetchGitHubRepo (repoUrl : String) (listing : ListingResponse)
    (details : DetailsResponse) : Except GHError GitHubRepo :=
  match matchGithubUrl repoUrl with
  | none => Except.error GHError.invalidUrl
  | some (owner, repo) =>
    match listing with
    | ListingResponse.err status _statusText =>
      if status = 403 then Except.error GHError.rateLimited
      else if status = 404 then Except.error GHError.notFound
      else Except.error (GHError.fetchFailed _statusText)
    | ListingResponse.ok items =>
      let defaultBranch :=
        match details with
        | DetailsResponse.ok branch => branch
        | DetailsResponse.failed => "main"
      Except.ok { name := repo, owner := owner, path := "",
                  default_branch := defaultBranch,
                  files := items.map toGitHubFile }

/-! ### fetchCompleteRepoStructure (githubApi.ts lines 108-220) -/

/-- A node of the full-structure snapshot.  The depth-overflow leaf at line
116 carries no `path` field, hence `Option String` for directory paths. -/
inductive TreeNode where
  | dir (name : String) (path : Option String) (children : List TreeNode)
  | file (name : String) (path : String) (size : Option Nat)

def TreeNode.childrenOf : TreeNode → List TreeNode
  | .dir _ _ cs => cs
  | .file _ _ _ => []

/-- One directory-listing item as consumed by `processDataArray`. -/
structure StructItem where
  name : String
  path : String
  type : String
  size : Option Nat

/-- Response to one `/contents` request inside the tree walk: a JSON array,
a non-array JSON value, or a non-ok HTTP status. -/
inductive LevelResponse where
  | okArr (items : List StructItem)
  | okOther
  | httpErr (status : Nat) (statusText : String)

/-- Network / timer events, logged in order of occurrence. -/
inductive FetchEvent where
  | request (url : String)
  | delay (ms : Nat)
deriving DecidableEq

/-- JS `path.split('/')` at the character level: split on every `/`. -/
def splitOnSlash : List Char → List (List Char)
  | [] => [[]]
  | c :: rest =>
    match splitOnSlash rest with
    | [] => [[]]
    | seg :: segs =>
      if c = '/' then [] :: seg :: segs else (c :: seg) :: segs

/-- `path.split('/').pop() || repo` (lines 116 and 215): the last segment,
or `repo` when it is empty (`''` is falsy). -/
def lastSegment (path repo : String) : String :=
  match (splitOnSlash path.data).getLast? with
  | some seg => if seg.isEmpty then repo else String.mk seg
  | none => repo

/-- The listing URL of one level (line 126). -/
def contentsUrl (owner repo path : String) : String :=
  "https://api.github.com/repos/" ++ owner ++ "/" ++ repo ++ "/contents/" ++ path

/-- The 150ms pre-request delay issued below the root (lines 121-123). -/
def preDelay (currentDepth : Nat) : List FetchEvent :=
  if currentDepth > 0 then [FetchEvent.delay 150] else []

mutual

/-- `fetchCompleteRepoStructure` (lines 108-173).  Returns the event log and
either the thrown error message or `(node, next request counter)`.  The
`Promise.all` batches of `processDataArray` are sequentialized (batch members
were already processed in listing order). -/
def fetchCompleteRepoStructure (env : Nat → LevelResponse) (owner repo path : String)
    (maxDepth currentDepth ctr : Nat) :
    List FetchEvent × Except String (TreeNode × Nat) :=
  if h : currentDepth ≥ maxDepth then
    ([], Except.ok (TreeNode.dir (lastSegment path repo) none [], ctr))
  else
    let url := contentsUrl owner repo path
    let lead := preDelay currentDepth ++ [FetchEvent.request url]
    match env ctr with
    | LevelResponse.okArr items =>
      let rec1 := processDataArray env owner repo items maxDepth currentDepth (ctr + 1)
        (by omega)
      (lead ++ rec1.1,
        rec1.2.map (fun r =>
          (TreeNode.dir (lastSegment path repo) (some path) r.1, r.2)))
    | LevelResponse.okOther =>
      (lead, Except.error "Invalid repository structure response from GitHub API")
    | LevelResponse.httpErr status statusText =>
      if status = 429 then
        -- wait 3000ms, retry once (lines 130-146)
        let lead2 := lead ++ [FetchEvent.delay 3000, FetchEvent.request url]
        match env (ctr + 1) with
        | LevelResponse.okArr retryData =>
          let rec1 := processDataArray env owner repo retryData maxDepth currentDepth
            (ctr + 2) (by omega)
          (lead2 ++ rec1.1,
            rec1.2.map (fun r =>
              (TreeNode.dir (lastSegment path repo) (some path) r.1, r.2)))
        | LevelResponse.okOther =>
          (lead2, Except.error ("Invalid response format for " ++ path))
        | LevelResponse.httpErr status2 statusText2 =>
          (lead2, Except.error ("Failed to fetch " ++ path ++ ": " ++ toString status2
            ++ " " ++ statusText2))
      else if status = 403 then
        (lead, Except.error "GitHub API rate limit exceeded. Please wait a few minutes and try again.")
      else if status = 404 then
        (lead, Except.error ("Repository or path not found: " ++ owner ++ "/" ++ repo
          ++ (if path = "" then "" else "/" ++ path)))
      else
        (lead, Except.error ("Failed to fetch repository structure: " ++ toString status
          ++ " " ++ statusText))
termination_by (maxDepth - currentDepth, 1, 0)

/-- `processDataArray` (lines 176-220), sequentialized item by item, keeping
listing order; returns the produced child nodes (the enclosing node is built
by the caller). -/
def processDataArray (env : Nat → LevelResponse) (owner repo : String)
    (items : List StructItem) (maxDepth currentDepth ctr : Nat)
    (h : currentDepth < maxDepth) :
    List FetchEvent × Except String (List TreeNode × Nat) :=
  match items with
  | [] => ([], Except.ok ([], ctr))
  | item :: rest =>
    if item.type == "dir" then
      let child := fetchCompleteRepoStructure env owner repo item.path maxDepth
        (currentDepth + 1) ctr
      match child.2 with
      | Except.error e => (child.1, Except.error e)
      | Except.ok (node, ctr1) =>
        let tail := processDataArray env owner repo rest maxDepth currentDepth ctr1 h
        (child.1 ++ tail.1,
          tail.2.map (fun r =>
            (TreeNode.dir item.name (some item.path) node.childrenOf :: r.1, r.2)))
    else
      let tail := processDataArray env owner repo rest maxDepth currentDepth ctr h
      (tail.1,
        tail.2.map (fun r =>
          (TreeNode.file item.name item.path item.size :: r.1, r.2)))
termination_by (maxDepth - currentDepth, 0, items.length)

end

/-! ## LLM client (geminiApi.ts: callGeminiAPI, lines 506-649)

A logical call walks the model list and, per model, up to `maxRetries`
attempts; each network attempt's observable outcome is supplied by an oracle
`outcome : Nat → AttemptOutcome` indexed by the attempt counter.  JavaScript
error values (`errorData`, `data.error`, caught exceptions, the strings the
no-text classifier produces) are modelled by `ErrVal`: the two fields the
code reads dynamically (`.status`, `.message`, each possibly absent) plus
the value's `JSON.stringify` rendering. -/

structure Explanation where
  content : String
  codeSnippets : Option (List String)
deriving DecidableEq

structure ErrVal where
  status : Option Nat
  message : Option String
  repr : String
deriving DecidableEq

/-- A plain string used as an error value: no `.status`/`.message` fields;
`JSON.stringify` renders it quoted. -/
def ErrVal.ofString (s : String) : ErrVal :=
  { status := none, message := none, repr := "\"" ++ s ++ "\"" }

/-- Observable outcome of one network attempt inside the try block. -/
inductive AttemptOutcome where
  | httpError (status : Nat) (retryAfter : Option Nat) (errorData : ErrVal)
  | apiError (err : ErrVal)
  | noText (finishReason : Option String) (candidatesLen : Option Nat)
  | success (text : String)
  | transport (e : ErrVal)
deriving DecidableEq

/-- `const modelNames = ['gemini-2.5-flash']` (lines 515-517). -/
def modelNames : List String := ["gemini-2.5-flash"]

/-- `const maxRetries = 2` (line 520). -/
def geminiMaxRetries : Nat := 2

/-- Substring test on character lists (JS `String.includes`). -/
def containsSubstr (pat : List Char) : List Char → Bool
  | [] => pat.isEmpty
  | c :: rest => pat.isPrefixOf (c :: rest) || containsSubstr pat rest

/-- The fence `\x60\x60\x60` delimiting code blocks. -/
def fenceChars : List Char := "```".data

/-- One pass of the regex scan for `/\x60\x60\x60[\s\S]*?\x60\x60\x60/g`:
outside a fence (`acc = none`) it looks for an opening fence; inside
(`acc = some cur`) it accumulates until the earliest closing fence (lazy
match); an unclosed trailing fence yields no further match. -/
def extractSnippetsAux (l : List Char) (acc : Option (List Char)) : List String :=
  match l with
  | [] => []
  | c :: rest =>
    if fenceChars.isPrefixOf (c :: rest) then
      match acc with
      | none => extractSnippetsAux (rest.drop 2) (some [])
      | some cur =>
        (String.mk (fenceChars ++ cur ++ fenceChars)) :: extractSnippetsAux (rest.drop 2) none
    else
      match acc with
      | none => extractSnippetsAux rest none
      | some cur => extractSnippetsAux rest (some (cur ++ [c]))
termination_by l.length
decreasing_by
  all_goals simp [List.length_drop]
  all_goals omega

/-- `extractCodeSnippets` (lines 652-656): all fenced blocks, fences
included, in order, non-overlapping. -/
def extractCodeSnippets (text : String) : List String :=
  extractSnippetsAux text.data none

/-- The structured `lastError` built on a 429 response (lines 565-569);
its message contains the phrase `rate limit`. -/
def rateLimit429Error (waitTime : Nat) (details : ErrVal) : ErrVal :=
  let seconds := (waitTime + 999) / 1000
  let msg := "Gemini API rate limit exceeded! Free tier: 15 requests/min, 1500/day. Wait "
    ++ toString seconds
    ++ "s. Consider: 1) Wait a minute 2) Use fewer AI features 3) Upgrade API tier"
  { status := some 429, message := some msg,
    repr := "\x7b\"status\":429,\"message\":\"" ++ msg ++ "\",\"details\":" ++ details.repr ++ "\x7d" }

/-- The wait computed on a 429: `Retry-After` seconds when present, else
`2^(attempt+2) * 1000` ms (line 559). -/
def rateLimitWaitTime (retryAfter : Option Nat) (attempt : Nat) : Nat :=
  match retryAfter with
  | some seconds => seconds * 1000
  | none => 2 ^ (attempt + 2) * 1000

/-- The no-text classification of lines 600-612. -/
def classifyNoText (finishReason : Option String) (candidatesLen : Option Nat) : ErrVal :=
  match finishReason with
  | some "SAFETY" => ErrVal.ofString "Content blocked by safety filters"
  | some "RECITATION" => ErrVal.ofString "Content blocked due to recitation"
  | some "MAX_TOKENS" => ErrVal.ofString "Response too long, truncated"
  | some reason => ErrVal.ofString ("Generation stopped: " ++ reason)
  | none =>
    match candidatesLen with
    | none => ErrVal.ofString "API returned empty candidates array - possible content filter"
    | some 0 => ErrVal.ofString "API returned empty candidates array - possible content filter"
    | some _ => ErrVal.ofString "No text in response - check console for details"

/-- The inner attempt loop for one model (lines 523-630).  Returns the
successful `Explanation` (if any), the `lastError` after leaving the loop,
and the next attempt-counter value. -/
def attemptLoop (outcome : Nat → AttemptOutcome) (idx : Nat) (remaining attempt : Nat)
    (lastError : Option ErrVal) : Option Explanation × Option ErrVal × Nat :=
  match remaining with
  | 0 => (none, lastError, idx)
  | r + 1 =>
    match outcome idx with
    | AttemptOutcome.success text =>
      (some { content := text, codeSnippets := some (extractCodeSnippets text) },
        lastError, idx + 1)
    | AttemptOutcome.httpError status retryAfter errorData =>
      if status = 429 then
        let waitTime := rateLimitWaitTime retryAfter attempt
        let le := some (rateLimit429Error waitTime errorData)
        if attempt < geminiMaxRetries - 1 then
          attemptLoop outcome (idx + 1) r (attempt + 1) le
        else (none, le, idx + 1)
      else (none, some errorData, idx + 1)
    | AttemptOutcome.apiError err => (none, some err, idx + 1)
    | AttemptOutcome.noText finishReason candidatesLen =>
      (none, some (classifyNoText finishReason candidatesLen), idx + 1)
    | AttemptOutcome.transport e =>
      if attempt = geminiMaxRetries - 1 then (none, some e, idx + 1)
      else attemptLoop outcome (idx + 1) r (attempt + 1) (some e)

/-- The outer model loop (line 522): on `break`, move to the next model,
carrying `lastError` forward. -/
def modelLoop (outcome : Nat → AttemptOutcome) (idx : Nat) (models : List String)
    (lastError : Option ErrVal) : Option Explanation × Option ErrVal :=
  match models with
  | [] => (none, lastError)
  | _model :: rest =>
    match attemptLoop outcome idx geminiMaxRetries 0 lastError with
    | (some e, le, _) => (some e, le)
    | (none, le, idx1) => modelLoop outcome idx1 rest le

/-- `lastError?.status === 429 || lastError?.message?.includes('rate limit')`
(line 638). -/
def isRateLimitError : Option ErrVal → Bool
  | none => false
  | some e =>
    e.status == some 429 ||
      (match e.message with
       | some m => containsSubstr "rate limit".data m.data
       | none => false)

/-- `lastError ? JSON.stringify(lastError, null, 2) : 'Unknown error'`
(line 634). -/
def errorMessageOf : Option ErrVal → String
  | none => "Unknown error"
  | some e => e.repr

/-- The rate-limit fallback content (line 640). -/
def rateLimitFallbackContent : String :=
  "⚠️ **Gemini API Rate Limit Exceeded**\n\n**Free Tier Limits:**\n- 15 requests per minute\n- 1500 requests per day\n\n**What to do:**\n1. ⏳ Wait 60 seconds and try again\n2. 🔄 Reload the page to reset\n3. 📉 Use AI features sparingly\n4. 💰 Upgrade your API tier at [Google AI Studio](https://aistudio.google.com)\n\n**Tip:** The batch function explanation feature reduces API calls significantly!"

/-- The generic all-models-failed content (line 646), parameterized by the
model list and the rendered last error. -/
def allModelsFailedContent (models : List String) (errorMessage : String) : String :=
  "⚠️ Unable to generate AI explanation.\n\n**All API models failed.** Please check:\n\n- ✓ Your API key is valid and active\n- ✓ You have internet connection\n- ✓ The Gemini API is accessible from your location\n- ✓ Your API key has proper permissions\n\n**Models tried:** "
    ++ String.intercalate ", " models
    ++ "\n\n**Last error:** " ++ errorMessage
    ++ "\n\nTry refreshing the page or checking your API key at: https://aistudio.google.com/app/apikey"

/-- The fallback `Explanation` built after exhaustion (lines 633-648). -/
def exhaustionFallback (lastError : Option ErrVal) : Explanation :=
  if isRateLimitError lastError then
    { content := rateLimitFallbackContent, codeSnippets := some [] }
  else
    { content := allModelsFailedContent modelNames (errorMessageOf lastError),
      codeSnippets := some [] }

/-- `callGeminiAPI` (lines 506-649).  The only `throw` that can escape is
the missing-api-key guard at line 508; every other path returns an
`Explanation`. -/
def callGeminiAPI (apiKey : String) (outcome : Nat → AttemptOutcome) :
    Except String Explanation :=
  if apiKey = "" then Except.error "Gemini API key is required"
  else
    match modelLoop outcome 0 modelNames none with
    | (some e, _) => Except.ok e
    | (none, lastError) => Except.ok (exhaustionFallback lastError)

/-! ## Batch function explanations
(geminiApi.ts: generateBatchFunctionExplanations, lines 212-248)

The LLM call is abstracted as an oracle `llm : String → Explanation`
(`callGeminiAPI` applied to the prompt); the second component of the result
is the list of prompts actually sent to it — the rate limiter is consulted
only inside `callGeminiAPI`, so an empty log also means the rate limiter was
never consulted. -/

/-- `functionsText` (lines 218-220): numbered blocks with the code capped at
500 characters (`func.code.slice(0, 500)`). -/
def batchFunctionsText (functions : List (String × String)) : String :=
  String.intercalate "\n\n"
    (functions.enum.map (fun p =>
      "FUNCTION_" ++ toString (p.1 + 1) ++ ": " ++ p.2.1 ++ "\n```\n"
        ++ String.mk (p.2.2.data.take 500) ++ "\n```"))

/-- The batch prompt (lines 222-229). -/
def batchPrompt (functions : List (String × String)) : String :=
  "Explain each function below in 1-2 sentences. Be specific about what each does.\n\n"
    ++ batchFunctionsText functions
    ++ "\n\nRespond in this exact format:\nFUNCTION_1: [explanation]\nFUNCTION_2: [explanation]\n..."

/-- `line.substring(line.indexOf(':') + 1)`: JS `indexOf` yields -1 when no
colon exists, so `substring(0)` returns the whole line. -/
def afterFirstColon (line : String) : String :=
  match line.data.findIdx? (fun c => c == ':') with
  | some i => String.mk (line.data.drop (i + 1))
  | none => line

/-- The positional response parsing of lines 233-245; a duplicate function
name overwrites nothing here because entries are kept in iteration order
(the JS record would keep the last write; no claim depends on this). -/
def parseBatchResponse (functions : List (String × String)) (content : String) :
    List (String × String) :=
  let lines := content.splitOn "\n"
  functions.enum.map (fun p =>
    let pattern := "FUNCTION_" ++ toString (p.1 + 1) ++ ":"
    match lines.find? (fun l => l.trim.startsWith pattern) with
    | some line => (p.2.1, (afterFirstColon line).trim)
    | none => (p.2.1, "No explanation available"))

/-- `generateBatchFunctionExplanations` (lines 212-248): returns the
name-to-explanation record (as an association list in iteration order) and
the log of prompts sent to the LLM. -/
def generateBatchFunctionExplanations (functions : List (String × String))
    (_apiKey : String) (llm : String → Explanation) :
    List (String × String) × List String :=
  if functions.length = 0 then ([], [])
  else
    let prompt := batchPrompt functions
    let result := llm prompt
    (parseBatchResponse functions result.content, [prompt])

/-!
# Theorems

One theorem (plus witness / counterexample where required) per claim of the
specification, with shared helper lemmas.
-/

/-! ## Claim C1 -/

theorem generateCodeQuestionContent_of_gt {content : List Char}
    (h : content.length > QUESTION_MAX_CHARS) :
    generateCodeQuestionContent content =
      (content.take (QUESTION_MAX_CHARS / 2) ++ questionTruncationMarker
        ++ content.drop (content.length - QUESTION_MAX_CHARS / 2), true) := by
  simp [generateCodeQuestionContent, h]

theorem fileTruncationMarker_eq (omitted : Nat) :
    fileTruncationMarker omitted =
      "\n\n... [middle section truncated - ".data ++ (toString omitted).data
        ++ " characters omitted] ...\n\n".data := by
  simp [fileTruncationMarker, String.data_append]

/-- Claim C1 (amended): for the file-explanation budget (15000), content at
most the budget passes through unchanged and unflagged, and longer content
becomes the first `budget/2` characters, a marker that does note the omitted
character count, then the last `budget/2` characters, flagged truncated; for
the question-answering budget (12000) the same head/tail windowing applies
but the marker is a fixed string that does not note the omitted count. -/
theorem c1_truncation_amended (content : List Char) :
    (content.length ≤ FILE_MAX_CHARS →
      generateFileExplanationContent content = (content, false)) ∧
    (content.length > FILE_MAX_CHARS →
      generateFileExplanationContent content =
        (content.take (FILE_MAX_CHARS / 2)
          ++ fileTruncationMarker (content.length - FILE_MAX_CHARS)
          ++ content.drop (content.length - FILE_MAX_CHARS / 2), true)
        ∧ (toString (content.length - FILE_MAX_CHARS)).data
            <:+: fileTruncationMarker (content.length - FILE_MAX_CHARS)) ∧
    (content.length ≤ QUESTION_MAX_CHARS →
      generateCodeQuestionContent content = (content, false)) ∧
    (content.length > QUESTION_MAX_CHARS →
      generateCodeQuestionContent content =
        (content.take (QUESTION_MAX_CHARS / 2) ++ questionTruncationMarker
          ++ content.drop (content.length - QUESTION_MAX_CHARS / 2), true)) := by
  refine ⟨fun h => ?_, fun h => ⟨?_, ?_⟩, fun h => ?_, fun h => ?_⟩
  · simp [generateFileExplanationContent, Nat.not_lt.mpr h]
  · simp [generateFileExplanationContent, h]
  · exact ⟨"\n\n... [middle section truncated - ".data,
      " characters omitted] ...\n\n".data,
      by rw [fileTruncationMarker_eq]⟩
  · simp [generateCodeQuestionContent, Nat.not_lt.mpr h]
  · exact generateCodeQuestionContent_of_gt h

theorem c1_truncation_amended_witness :
    generateFileExplanationContent ['a'] = (['a'], false) ∧
    generateCodeQuestionContent ['a'] = (['a'], false) :=
  ⟨(c1_truncation_amended ['a']).1 (by decide),
   (c1_truncation_amended ['a']).2.2.1 (by decide)⟩

/-- Claim C1 counterexample: the claim asserts that for content longer than
the question-answering budget (12000) the embedded text is head ++ a marker
noting the omitted character count ++ tail.  For 12001 copies of 'a' the
omitted count is 1, so the digit '1' would have to appear in the embedded
text; the actual output consists only of 'a's and the fixed marker
`... [middle section omitted] ...`, which contains no digit at all. -/
theorem c1_counterexample :
    (generateCodeQuestionContent (List.replicate 12001 'a')).2 = true ∧
    ¬ ('1' ∈ (generateCodeQuestionContent (List.replicate 12001 'a')).1) := by
  have hlen : (List.replicate 12001 'a').length > QUESTION_MAX_CHARS := by
    rw [List.length_replicate]; decide
  have hv := generateCodeQuestionContent_of_gt hlen
  refine ⟨by rw [hv], ?_⟩
  rw [hv]
  intro hmem
  rcases List.mem_append.1 hmem with h | h
  · rcases List.mem_append.1 h with h1 | h1
    · rw [List.take_replicate] at h1
      exact absurd (List.eq_of_mem_replicate h1) (by decide)
    · exact absurd h1 (by decide)
  · rw [List.drop_replicate] at h
    exact absurd (List.eq_of_mem_replicate h) (by decide)

/-! ## Claim C9 -/

/-- Claim C9: under sequential use (the second turn starts no earlier than
the first grant) and the scheduler contract (`setTimeout` never fires early),
the second grant timestamp is at least the first grant plus
`MIN_CALL_INTERVAL`, and each turn stores its grant timestamp into the
shared `lastGeminiCallTime`; a turn always produces a grant (delayed, never
denied). -/
theorem c9_rate_limiter (lastGeminiCallTime : Nat) (t1 t2 : RateLimitTurn)
    (hseq : (waitForRateLimit lastGeminiCallTime t1).1 ≤ t2.startTime)
    (h2 : ValidTurn (waitForRateLimit lastGeminiCallTime t1).2 t2) :
    (waitForRateLimit lastGeminiCallTime t1).1 + MIN_CALL_INTERVAL ≤
      (waitForRateLimit (waitForRateLimit lastGeminiCallTime t1).2 t2).1 ∧
    (∀ last t, (waitForRateLimit last t).2 = (waitForRateLimit last t).1) := by
  refine ⟨?_, fun last t => rfl⟩
  have h2' : t2.startTime + requiredWaitTime t1.resumeTime t2.startTime ≤ t2.resumeTime := h2
  have hseq' : t1.resumeTime ≤ t2.startTime := hseq
  show t1.resumeTime + MIN_CALL_INTERVAL ≤ t2.resumeTime
  simp only [requiredWaitTime, MIN_CALL_INTERVAL] at h2' ⊢
  split at h2' <;> omega

theorem c9_rate_limiter_witness :
    (waitForRateLimit 0 ⟨0, 1000⟩).1 + MIN_CALL_INTERVAL ≤
      (waitForRateLimit (waitForRateLimit 0 ⟨0, 1000⟩).2 ⟨1000, 2000⟩).1 :=
  (c9_rate_limiter 0 ⟨0, 1000⟩ ⟨1000, 2000⟩ (by decide)
    (by show (1000 : Nat) + requiredWaitTime 1000 1000 ≤ 2000; decide)).1

/-! ## Claim C3 -/

theorem addToSet_nodup {s : List String} (x : String) (h : s.Nodup) :
    (addToSet s x).Nodup := by
  unfold addToSet
  split
  · exact h
  · next hx => simpa [List.nodup_append] using ⟨h, fun hmem => hx hmem⟩

theorem processComponents_nodup (comps : List DiagComponent) (acc : String)
    (validIds : List String) (h : validIds.Nodup) :
    ((processComponents comps acc validIds).2).Nodup := by
  induction comps generalizing acc validIds with
  | nil => simpa [processComponents] using h
  | cons comp rest ih =>
    simpa [processComponents] using ih _ _ (addToSet_nodup _ h)

theorem processModules_nodup (mods : List DiagModule) (acc : String)
    (validIds : List String) (h : validIds.Nodup) :
    ((processModules mods acc validIds).2).Nodup := by
  induction mods generalizing acc validIds with
  | nil => simpa [processModules] using h
  | cons m rest ih =>
    unfold processModules
    cases m.components with
    | none => simpa using ih _ _ h
    | some comps => simpa using ih _ _ (processComponents_nodup comps _ _ h)

/-- Claim C3 (amended): the declared-id set built by the compiler's module
pass is duplicate-free (it is a JS `Set`); however, a node line is emitted
for every component, so two components whose ids sanitize to the same string
both emit that id, and the ids appearing in the compiled output need not be
pairwise unique. -/
theorem c3_amended (mods : List DiagModule) :
    ((processModules mods "graph TD\n" []).2).Nodup :=
  processModules_nodup mods _ _ List.nodup_nil

/-- Input with two components whose ids coincide. -/
def dupIdModules : List DiagModule :=
  [ { label := some "M",
      components := some [ { id := some "a", label := some "A" },
                           { id := some "a", label := some "B" } ] } ]

/-- Claim C3 counterexample: on `dupIdModules` compilation succeeds and both
components are emitted with the same sanitized id `a`, so the ids of the
components in the compiled output are not pairwise unique. -/
theorem c3_counterexample :
    (∃ s, convertJsonToMermaid
      { modules := ModulesField.array dupIdModules, relationships := none }
        = Except.ok s) ∧
    ¬ (emittedComponentIds dupIdModules).Nodup :=
  ⟨⟨_, rfl⟩, by decide⟩

/-! ## Claim C5 -/

/-- Claim C5: the compiler fails with `InvalidDiagramData` (the thrown
`Invalid diagram data structure`) exactly when the top-level `modules` field
is missing or not an array; whenever `modules` is an array, compilation
succeeds and the result ends with the fixed default style directive —
malformed nested entries degrade to defaults rather than aborting (the
success case holds for every such input). -/
theorem c5_invalid_iff (data : DiagramData) :
    ((convertJsonToMermaid data = Except.error "Invalid diagram data structure") ↔
      (data.modules = ModulesField.absent ∨
        ∃ v, data.modules = ModulesField.notArray v)) ∧
    (∀ mods, data.modules = ModulesField.array mods →
      ∃ s, convertJsonToMermaid data = Except.ok s ∧ mermaidFooter.data <:+ s.data) := by
  obtain ⟨modules, relationships⟩ := data
  cases modules with
  | absent => exact ⟨by simp [convertJsonToMermaid], by simp⟩
  | notArray v => exact ⟨by simp [convertJsonToMermaid], by simp⟩
  | array mods =>
    refine ⟨by simp [convertJsonToMermaid], fun mods1 h1 => ?_⟩
    refine ⟨_, rfl, ?_⟩
    simp only [String.data_append]
    exact List.suffix_append _ _

theorem c5_invalid_iff_witness :
    convertJsonToMermaid
      { modules := ModulesField.notArray "not-an-array", relationships := none }
        = Except.error "Invalid diagram data structure" :=
  (c5_invalid_iff _).1.mpr (Or.inr ⟨_, rfl⟩)

/-! ## Claim C4 -/

theorem processRelationships_eq (validIds : List String)
    (rels : List DiagRelationship) (acc : String) :
    processRelationships validIds rels acc =
      acc ++ joinStrs (rels.map (fun rel => (relationshipLine validIds rel).getD "")) := by
  induction rels generalizing acc with
  | nil => simp [processRelationships, joinStrs]
  | cons rel rest ih =>
    rw [processRelationships, ih]
    simp [joinStrs, String.append_assoc]

/-- Claim C4: with `modules` an array and `relationships` an array,
compilation succeeds and the output is the node section followed by exactly
one edge-line contribution per relationship and the footer; the contribution
of a relationship is an edge line precisely when both its sanitized
endpoints are in the declared-id set (a relationship referencing an
undeclared id contributes nothing and never fails compilation), and the
edge is dotted exactly when the relationship's kind is `dotted`, else
solid. -/
theorem c4_relationships (data : DiagramData) (mods : List DiagModule)
    (rels : List DiagRelationship)
    (hm : data.modules = ModulesField.array mods)
    (hr : data.relationships = some rels) :
    convertJsonToMermaid data =
      Except.ok ((processModules mods "graph TD\n" []).1
        ++ joinStrs (rels.map (fun rel =>
            (relationshipLine (processModules mods "graph TD\n" []).2 rel).getD ""))
        ++ mermaidFooter) ∧
    (∀ rel,
      ((relSanFrom rel ∈ (processModules mods "graph TD\n" []).2 ∧
        relSanTo rel ∈ (processModules mods "graph TD\n" []).2) →
        relationshipLine (processModules mods "graph TD\n" []).2 rel =
          some ("    " ++ relSanFrom rel ++ " "
            ++ (if rel.type == some "dotted" then "-.->" else "-->")
            ++ " " ++ relSanTo rel ++ "\n")) ∧
      (¬ (relSanFrom rel ∈ (processModules mods "graph TD\n" []).2 ∧
          relSanTo rel ∈ (processModules mods "graph TD\n" []).2) →
        relationshipLine (processModules mods "graph TD\n" []).2 rel = none)) := by
  constructor
  · obtain ⟨modules, relationships⟩ := data
    cases hm
    cases hr
    simp only [convertJsonToMermaid, processRelationships_eq, String.append_assoc]
  · intro rel
    constructor
    · intro hboth
      rw [relationshipLine]
      simp only [if_pos hboth]
    · intro hnot
      rw [relationshipLine]
      simp only [if_neg hnot]

/-- Sample modules declaring components `a` and `b`. -/
def relSampleModules : List DiagModule :=
  [ { label := some "Core",
      components := some [ { id := some "a", label := some "A" },
                           { id := some "b", label := some "B" } ] } ]

/-- Sample relationships: a dotted edge between declared ids and an edge to
an undeclared id. -/
def relSampleRels : List DiagRelationship :=
  [ { «from» := some "a", «to» := some "b", type := some "dotted" },
    { «from» := some "a", «to» := some "ghost", type := none } ]

def relSampleData : DiagramData :=
  { modules := ModulesField.array relSampleModules,
    relationships := some relSampleRels }

theorem c4_relationships_witness :
    relationshipLine (processModules relSampleModules "graph TD\n" []).2
        { «from» := some "a", «to» := some "ghost", type := none } = none ∧
    relationshipLine (processModules relSampleModules "graph TD\n" []).2
        { «from» := some "a", «to» := some "b", type := some "dotted" } =
      some ("    " ++ relSanFrom { «from» := some "a", «to» := some "b", type := some "dotted" }
        ++ " " ++ "-.->" ++ " "
        ++ relSanTo { «from» := some "a", «to» := some "b", type := some "dotted" } ++ "\n") :=
  ⟨((c4_relationships relSampleData relSampleModules relSampleRels rfl rfl).2 _).2
      (by decide),
   ((c4_relationships relSampleData relSampleModules relSampleRels rfl rfl).2 _).1
      (by decide)⟩

/-! ## Claim C6 -/

/-- Claim C6: `fetchGitHubRepo` fails with `InvalidUrl` exactly when the URL
does not match `github.com/<owner>/<repo>` (trailing segments ignored by the
regex); on a failing listing response it fails with `RateLimited` for 403,
`RepoNotFound` for 404 and `FetchFailed` otherwise; on a successful listing
it returns a repository whose `owner`/`name` are the URL capture groups and
whose `files` are the listing items converted one to one. -/
theorem c6_fetch_repo (repoUrl : String) (listing : ListingResponse)
    (details : DetailsResponse) :
    ((fetchGitHubRepo repoUrl listing details = Except.error GHError.invalidUrl) ↔
      matchGithubUrl repoUrl = none) ∧
    (∀ owner repo, matchGithubUrl repoUrl = some (owner, repo) →
      (∀ st, listing = ListingResponse.err 404 st →
        fetchGitHubRepo repoUrl listing details = Except.error GHError.notFound) ∧
      (∀ st, listing = ListingResponse.err 403 st →
        fetchGitHubRepo repoUrl listing details = Except.error GHError.rateLimited) ∧
      (∀ status st, listing = ListingResponse.err status st → status ≠ 403 → status ≠ 404 →
        fetchGitHubRepo repoUrl listing details =
          Except.error (GHError.fetchFailed st)) ∧
      (∀ items, listing = ListingResponse.ok items →
        fetchGitHubRepo repoUrl listing details =
          Except.ok { name := repo, owner := owner, path := "",
                      default_branch :=
                        (match details with
                         | DetailsResponse.ok branch => branch
                         | DetailsResponse.failed => "main"),
                      files := items.map toGitHubFile } ∧
        (items.map toGitHubFile).length = items.length)) := by
  cases hmatch : matchGithubUrl repoUrl with
  | none =>
    refine ⟨?_, fun owner repo h => Option.noConfusion h⟩
    simp [fetchGitHubRepo, hmatch]
  | some pair =>
    obtain ⟨owner0, repo0⟩ := pair
    constructor
    · refine iff_of_false ?_ (fun h => Option.noConfusion h)
      intro h
      cases listing with
      | ok items => simp [fetchGitHubRepo, hmatch] at h
      | err status st =>
        by_cases h403 : status = 403
        · subst h403; simp [fetchGitHubRepo, hmatch] at h
        · by_cases h404 : status = 404
          · subst h404; simp [fetchGitHubRepo, hmatch, h403] at h
          · simp [fetchGitHubRepo, hmatch, h403, h404] at h
    · rintro owner repo h
      injection h with h'
      injection h' with h1 h2
      subst h1; subst h2
      refine ⟨?_, ?_, ?_, ?_⟩
      · rintro st rfl
        simp [fetchGitHubRepo, hmatch]
      · rintro st rfl
        simp [fetchGitHubRepo, hmatch]
      · rintro status st rfl h403 h404
        simp [fetchGitHubRepo, hmatch, h403, h404]
      · rintro items rfl
        refine ⟨by simp [fetchGitHubRepo, hmatch], by simp⟩

/-- The listing of the specification's end-to-end scenario. -/
def demoListing : List ListingItem :=
  [ { name := "a.ts", path := "a.ts", type := "file", size := some 10,
      download_url := some "https://raw.example/a.ts", sha := some "s1",
      url := some "https://api.example/a.ts" },
    { name := "lib", path := "lib", type := "dir", size := none,
      download_url := none, sha := some "s2", url := some "https://api.example/lib" } ]

theorem c6_fetch_repo_witness :
    fetchGitHubRepo "https://github.com/octo/demo" (ListingResponse.ok demoListing)
        DetailsResponse.failed =
      Except.ok { name := "demo", owner := "octo", path := "", default_branch := "main",
                  files := demoListing.map toGitHubFile } :=
  (((c6_fetch_repo "https://github.com/octo/demo" (ListingResponse.ok demoListing)
      DetailsResponse.failed).2 "octo" "demo" (by decide)).2.2.2 demoListing rfl).1

/-! ## Claim C7 -/

/-- Claim C7: whenever `currentDepth ≥ maxDepth`, `fetchCompleteRepoStructure`
returns the empty-children directory leaf (named by the last path segment,
defaulting to the repository name, with no `path` field) and issues no
network request and no timer delay at that level. -/
theorem c7_depth_guard (env : Nat → LevelResponse) (owner repo path : String)
    (maxDepth currentDepth ctr : Nat) (h : currentDepth ≥ maxDepth) :
    fetchCompleteRepoStructure env owner repo path maxDepth currentDepth ctr =
      ([], Except.ok (TreeNode.dir (lastSegment path repo) none [], ctr)) := by
  rw [fetchCompleteRepoStructure]
  simp [h]

theorem c7_depth_guard_witness :
    fetchCompleteRepoStructure (fun _ => LevelResponse.okArr []) "o" "r" "p/q" 1 1 0 =
      ([], Except.ok (TreeNode.dir "q" none [], 0)) :=
  c7_depth_guard (fun _ => LevelResponse.okArr []) "o" "r" "p/q" 1 1 0 (by decide)

/-! ## Claim C8 -/

/-- Claim C8: at a level whose listing request receives a rate-limit
response (HTTP 429, the status the fetcher treats as retryable rate
limiting), exactly one retry of the same request is performed after a fixed
3000ms delay; if the retry also fails (non-ok status, or an ok status with a
non-array body) the failure is fatal for that subtree and propagates as the
corresponding thrown error, with no further retries — the event log shows
exactly the two requests with only the 3000ms delay between them, and in the
retry-success case processing continues with no third request for that
level's listing. -/
theorem c8_rate_limit_retry (env : Nat → LevelResponse) (owner repo path : String)
    (maxDepth currentDepth ctr : Nat) (st : String)
    (hd : currentDepth < maxDepth)
    (h429 : env ctr = LevelResponse.httpErr 429 st) :
    (∀ status2 statusText2, env (ctr + 1) = LevelResponse.httpErr status2 statusText2 →
      fetchCompleteRepoStructure env owner repo path maxDepth currentDepth ctr =
        (preDelay currentDepth
          ++ [FetchEvent.request (contentsUrl owner repo path), FetchEvent.delay 3000,
              FetchEvent.request (contentsUrl owner repo path)],
         Except.error ("Failed to fetch " ++ path ++ ": " ++ toString status2
           ++ " " ++ statusText2))) ∧
    (env (ctr + 1) = LevelResponse.okOther →
      fetchCompleteRepoStructure env owner repo path maxDepth currentDepth ctr =
        (preDelay currentDepth
          ++ [FetchEvent.request (contentsUrl owner repo path), FetchEvent.delay 3000,
              FetchEvent.request (contentsUrl owner repo path)],
         Except.error ("Invalid response format for " ++ path))) ∧
    (∀ retryData, env (ctr + 1) = LevelResponse.okArr retryData →
      (fetchCompleteRepoStructure env owner repo path maxDepth currentDepth ctr).1 =
        preDelay currentDepth
          ++ [FetchEvent.request (contentsUrl owner repo path), FetchEvent.delay 3000,
              FetchEvent.request (contentsUrl owner repo path)]
          ++ (processDataArray env owner repo retryData maxDepth currentDepth (ctr + 2) hd).1) := by
  have hnot : ¬ currentDepth ≥ maxDepth := by omega
  refine ⟨?_, ?_, ?_⟩
  · intro status2 statusText2 hretry
    rw [fetchCompleteRepoStructure]
    rw [dif_neg hnot, h429, hretry]
    simp
  · intro hretry
    rw [fetchCompleteRepoStructure]
    rw [dif_neg hnot, h429, hretry]
    simp
  · intro retryData hretry
    rw [fetchCompleteRepoStructure]
    rw [dif_neg hnot, h429, hretry]
    simp

/-- A response oracle: 429 on the first request, 500 on the retry. -/
def c8Env : Nat → LevelResponse := fun i =>
  if i = 0 then LevelResponse.httpErr 429 "Too Many Requests"
  else LevelResponse.httpErr 500 "Server Error"

theorem c8_rate_limit_retry_witness :
    fetchCompleteRepoStructure c8Env "o" "r" "src" 3 1 0 =
      ([FetchEvent.delay 150, FetchEvent.request (contentsUrl "o" "r" "src"),
        FetchEvent.delay 3000, FetchEvent.request (contentsUrl "o" "r" "src")],
       Except.error ("Failed to fetch " ++ "src" ++ ": " ++ toString 500
         ++ " " ++ "Server Error")) :=
  (c8_rate_limit_retry c8Env "o" "r" "src" 3 1 0 "Too Many Requests"
      (by decide) rfl).1 500 "Server Error" rfl

/-! ## Claim C2 -/

theorem attemptLoop_no_success (outcome : Nat → AttemptOutcome)
    (hfail : ∀ i t, outcome i ≠ AttemptOutcome.success t) :
    ∀ remaining idx attempt lastError,
      (attemptLoop outcome idx remaining attempt lastError).1 = none := by
  intro remaining
  induction remaining with
  | zero => intro idx attempt lastError; rfl
  | succ r ih =>
    intro idx attempt lastError
    rw [attemptLoop]
    cases houtcome : outcome idx with
    | success t => exact absurd houtcome (hfail idx t)
    | httpError status retryAfter errorData =>
      dsimp only
      split
      · split
        · exact ih _ _ _
        · rfl
      · rfl
    | apiError err => rfl
    | noText finishReason candidatesLen => rfl
    | transport e =>
      dsimp only
      split
      · rfl
      · exact ih _ _ _

theorem modelLoop_no_success (outcome : Nat → AttemptOutcome)
    (hfail : ∀ i t, outcome i ≠ AttemptOutcome.success t) :
    ∀ models idx lastError, (modelLoop outcome idx models lastError).1 = none := by
  intro models
  induction models with
  | nil => intro idx lastError; rfl
  | cons m rest ih =>
    intro idx lastError
    rw [modelLoop]
    cases hal : attemptLoop outcome idx geminiMaxRetries 0 lastError with
    | mk fst snd =>
      have h1 : fst = none := by
        have := attemptLoop_no_success outcome hfail geminiMaxRetries idx 0 lastError
        rw [hal] at this
        exact this
      subst h1
      obtain ⟨le, idx1⟩ := snd
      exact ih _ _

/-- Claim C2: when every network attempt fails (no attempt yields generated
text), `callGeminiAPI` returns a normally-shaped `Explanation` (no exception
beyond the missing-api-key guard): its content is the rate-limit-specific
user-facing message when the last failure is a quota/rate-limit error
(`status === 429` or a message containing `rate limit`), and otherwise the
generic all-models-failed message enumerating the models attempted and the
rendered last raw error; `codeSnippets` is the empty list in both cases. -/
theorem c2_exhaustion (apiKey : String) (outcome : Nat → AttemptOutcome)
    (hkey : apiKey ≠ "")
    (hfail : ∀ i t, outcome i ≠ AttemptOutcome.success t) :
    callGeminiAPI apiKey outcome =
      Except.ok (exhaustionFallback (modelLoop outcome 0 modelNames none).2) ∧
    (∀ le, (exhaustionFallback le).codeSnippets = some []) ∧
    (∀ le, isRateLimitError le = true →
      (exhaustionFallback le).content = rateLimitFallbackContent) ∧
    (∀ le, isRateLimitError le = false →
      (exhaustionFallback le).content =
        allModelsFailedContent modelNames (errorMessageOf le)) := by
  refine ⟨?_, ?_, ?_, ?_⟩
  · rw [callGeminiAPI, if_neg hkey]
    cases hml : modelLoop outcome 0 modelNames none with
    | mk fst snd =>
      have h1 : fst = none := by
        have := modelLoop_no_success outcome hfail modelNames 0 none
        rw [hml] at this
        exact this
      subst h1
      rfl
  · intro le
    rw [exhaustionFallback]
    split <;> rfl
  · intro le h
    rw [exhaustionFallback, if_pos h]
  · intro le h
    rw [exhaustionFallback, if_neg (by rw [h]; exact Bool.false_ne_true)]

/-- An oracle on which every attempt fails with a transport error. -/
def c2FailEnv : Nat → AttemptOutcome :=
  fun _ => AttemptOutcome.transport (ErrVal.ofString "network down")

theorem c2_exhaustion_witness :
    callGeminiAPI "key" c2FailEnv =
      Except.ok (exhaustionFallback (modelLoop c2FailEnv 0 modelNames none).2) ∧
    (exhaustionFallback (modelLoop c2FailEnv 0 modelNames none).2).codeSnippets = some [] :=
  ⟨(c2_exhaustion "key" c2FailEnv (by decide)
      (fun i t h => AttemptOutcome.noConfusion h)).1,
   (c2_exhaustion "key" c2FailEnv (by decide)
      (fun i t h => AttemptOutcome.noConfusion h)).2.1 _⟩

/-! ## Claim C10 -/

/-- Claim C10: `generateBatchFunctionExplanations` applied to the empty list
of functions returns the empty record and sends no prompt to the LLM (the
rate limiter is consulted only inside `callGeminiAPI`, so it is not
consulted either). -/
theorem c10_empty_batch (apiKey : String) (llm : String → Explanation) :
    generateBatchFunctionExplanations [] apiKey llm = ([], []) := rfl
